import Mathlib

/-!
Verification of the expense-tracker backend against its specification.

The Python source is shallowly embedded: pure functions become Lean
functions over `List Char` (Python `str`), `ℚ` (Python `Decimal`/`float`,
modelled exactly), `Int` (timestamps) and `Option` (Python `None`).
Each embedded definition is named after the source function it models and
carries a doc comment pointing at the source location.
-/

namespace ExpenseTracker

/-! ## String machinery

Python `str.split(sep)` for a one-character separator, `sep.join`,
`str.strip()` and substring membership, modelled over `List Char`.
-/

/-- Python `s.split(c)` for a single-character separator `c`:
`splitOnChar c "" = [""]`, and each occurrence of `c` starts a new part. -/
def splitOnChar (c : Char) : List Char → List (List Char)
  | [] => [[]]
  | x :: xs =>
    if x = c then [] :: splitOnChar c xs
    else
      match splitOnChar c xs with
      | [] => [[x]]
      | p :: ps => (x :: p) :: ps

/-- Python `c.join(parts)` for a one-character joiner `c`. -/
def joinSep (c : Char) : List (List Char) → List Char
  | [] => []
  | [p] => p
  | p :: q :: ps => p ++ c :: joinSep c (q :: ps)

/-- Python `s.strip()`: drop leading and trailing whitespace. -/
def pyStrip (s : List Char) : List Char :=
  ((s.dropWhile Char.isWhitespace).reverse.dropWhile Char.isWhitespace).reverse

theorem splitOnChar_ne_nil (c : Char) (s : List Char) : splitOnChar c s ≠ [] := by
  induction s with
  | nil => simp [splitOnChar]
  | cons x xs ih =>
    simp only [splitOnChar]
    split
    · simp
    · split
      · simp
      · simp

theorem splitOnChar_of_not_mem {c : Char} {s : List Char} (h : c ∉ s) :
    splitOnChar c s = [s] := by
  induction s with
  | nil => rfl
  | cons x xs ih =>
    have hx : x ≠ c := fun hxc => h (hxc ▸ List.mem_cons_self x xs)
    have hxs : c ∉ xs := fun hc => h (List.mem_cons_of_mem x hc)
    simp only [splitOnChar, if_neg hx, ih hxs]

theorem splitOnChar_append_cons {c : Char} {a : List Char} (b : List Char)
    (h : c ∉ a) : splitOnChar c (a ++ c :: b) = a :: splitOnChar c b := by
  induction a with
  | nil => simp [splitOnChar]
  | cons x xs ih =>
    have hx : x ≠ c := fun hxc => h (hxc ▸ List.mem_cons_self x xs)
    have hxs : c ∉ xs := fun hc => h (List.mem_cons_of_mem x hc)
    simp only [List.cons_append, splitOnChar, if_neg hx]
    rw [show xs.append (c :: b) = xs ++ c :: b from rfl, ih hxs]

/-- Splitting undoes joining, when no part contains the separator. -/
theorem splitOnChar_joinSep {c : Char} {ps : List (List Char)} (hne : ps ≠ [])
    (h : ∀ p ∈ ps, c ∉ p) : splitOnChar c (joinSep c ps) = ps := by
  induction ps with
  | nil => exact absurd rfl hne
  | cons p qs ih =>
    cases qs with
    | nil =>
      simp only [joinSep]
      exact splitOnChar_of_not_mem (h p (List.mem_cons_self p []))
    | cons q rs =>
      simp only [joinSep]
      rw [splitOnChar_append_cons _ (h p (List.mem_cons_self p _))]
      have := ih (by simp) (fun r hr => h r (List.mem_cons_of_mem p hr))
      simp only [joinSep] at this
      rw [this]

theorem pyStrip_cons_space (s : List Char) : pyStrip (' ' :: s) = pyStrip s := by
  simp [pyStrip, List.dropWhile]

theorem pyStrip_eq_nil : pyStrip ([] : List Char) = [] := rfl

/-! ## Embedding service: canonical transaction text

Source: `app/services/embeddings_free.py` (`FreeEmbeddingService`), with the
same two functions duplicated verbatim in `app/services/embeddings.py`
(`EmbeddingService`).  `date.strftime("%Y-%m-%d")` and `f"₹{float(amount)}"`
are foreign formatting calls; the embedding receives their outputs as the
already-rendered strings `dateStr` and `amountStr` (digit/dash/dot strings,
so in particular free of the separators).
-/

/-- Model of `format_transaction_text` from
`app/services/embeddings_free.py` lines 20-55: builds
`date│₹amount│merchant│description│→ category`, where the merchant falls
back to `"Unknown"` when empty, merchant and description are stripped, the
description part is dropped when absent or empty, and the category part
`"→ " ++ category` is appended only for a non-empty category. -/
def format_transaction_text (dateStr amountStr merchant : List Char)
    (description category : Option (List Char)) : List Char :=
  let merchantStr := if merchant = [] then "Unknown".data else pyStrip merchant
  let descStr := (description.map pyStrip).getD []
  let parts := [dateStr, '₹' :: amountStr, merchantStr]
    ++ (if descStr = [] then [] else [descStr])
    ++ (match category with
        | some cg => if cg = [] then [] else ['→' :: ' ' :: cg]
        | none => [])
  joinSep '│' parts

/-- Result shape of `extract_transaction_details`: the Python dict with keys
`date`, `amount`, `merchant`, `description` (always present, possibly `None`)
and `category` (present only when some part contains `→`). -/
structure TxnDetails where
  date : Option (List Char)
  amount : Option (List Char)
  merchant : Option (List Char)
  description : Option (List Char)
  category : Option (List Char)
  deriving DecidableEq, Repr

/-- Model of `extract_transaction_details` from
`app/services/embeddings_free.py` lines 95-116: split on `│`, strip every
`₹` from the amount part, null the description when its part carries `→`,
and pull the category out of the first part containing `→`. -/
def extract_transaction_details (text : List Char) : TxnDetails :=
  let parts := splitOnChar '│' text
  { date := parts.get? 0
    amount := (parts.get? 1).map (List.filter (fun ch => ch ≠ '₹'))
    merchant := parts.get? 2
    description :=
      match parts.get? 3 with
      | some p => if p.contains '→' then none else some p
      | none => none
    category := (parts.find? (fun p => p.contains '→')).map
      (fun p => pyStrip ((splitOnChar '→' p).getD 1 [])) }

theorem contains_eq_false_of_not_mem {c : Char} {l : List Char} (h : c ∉ l) :
    l.contains c = false := by
  induction l with
  | nil => rfl
  | cons x xs ih =>
    have hx : c ≠ x := fun hcx => h (hcx ▸ List.mem_cons_self x xs)
    have hxs : c ∉ xs := fun hc => h (List.mem_cons_of_mem x hc)
    simp only [List.contains_cons, ih hxs, Bool.or_false, beq_eq_false_iff_ne]
    exact hx



theorem not_mem_cons_of_ne_of_not_mem {c x : Char} {l : List Char}
    (h1 : c ≠ x) (h2 : c ∉ l) : c ∉ x :: l := by
  intro h
  rcases List.mem_cons.mp h with h | h
  · exact h1 h
  · exact h2 h

/-- C7 counterexample: the round-trip claim as stated fails for the empty
merchant (which contains neither `│` nor `→`): `format_transaction_text`
substitutes `"Unknown"`, so extraction does not recover the original
merchant. -/
theorem C7_counterexample :
    ('│' ∉ ([] : List Char)) ∧ ('→' ∉ ([] : List Char)) ∧
    (extract_transaction_details (format_transaction_text
        "2024-01-01".data "50.0".data [] none none)).merchant ≠ some [] := by
  refine ⟨by decide, by decide, by decide⟩

/-- C7 (amended): for every date string, amount string, merchant, optional
description and optional category — where the date and amount strings are
free of `│`, `→` (and the amount of `₹`), the merchant is non-empty,
whitespace-trimmed and free of `│` and `→`, any supplied description is
non-empty, whitespace-trimmed and free of `│` and `→`, and any supplied
category likewise — `extract_transaction_details` applied to
`format_transaction_text` recovers the date string, the amount with the
currency symbol stripped, the merchant, the description exactly when one
was supplied, and the category exactly when one was supplied. -/
theorem C7_roundtrip (dateStr amountStr merchant : List Char)
    (description category : Option (List Char))
    (hd1 : '│' ∉ dateStr) (hd2 : '→' ∉ dateStr)
    (ha1 : '│' ∉ amountStr) (ha2 : '→' ∉ amountStr) (ha3 : '₹' ∉ amountStr)
    (hm0 : merchant ≠ []) (hm1 : pyStrip merchant = merchant)
    (hm2 : '│' ∉ merchant) (hm3 : '→' ∉ merchant)
    (hde : ∀ d, description = some d →
      d ≠ [] ∧ pyStrip d = d ∧ '│' ∉ d ∧ '→' ∉ d)
    (hcg : ∀ cg, category = some cg →
      cg ≠ [] ∧ pyStrip cg = cg ∧ '│' ∉ cg ∧ '→' ∉ cg) :
    extract_transaction_details
        (format_transaction_text dateStr amountStr merchant description category) =
      ⟨some dateStr, some amountStr, some merchant, description, category⟩ := by
  have hamt1 : '│' ∉ '₹' :: amountStr :=
    not_mem_cons_of_ne_of_not_mem (by decide) ha1
  have hcd : dateStr.contains '→' = false := contains_eq_false_of_not_mem hd2
  have hca : ('₹' :: amountStr).contains '→' = false :=
    contains_eq_false_of_not_mem (not_mem_cons_of_ne_of_not_mem (by decide) ha2)
  have hcm : merchant.contains '→' = false := contains_eq_false_of_not_mem hm3
  rcases description with _ | d <;> rcases category with _ | cg
  · -- no description, no category
    have hform : format_transaction_text dateStr amountStr merchant none none
        = joinSep '│' [dateStr, '₹' :: amountStr, merchant] := by
      simp [format_transaction_text, if_neg hm0, hm1]
    have hsplit : splitOnChar '│'
        (format_transaction_text dateStr amountStr merchant none none)
        = [dateStr, '₹' :: amountStr, merchant] := by
      rw [hform]
      refine splitOnChar_joinSep (by simp) ?_
      intro p hp
      simp only [List.mem_cons, List.not_mem_nil, or_false] at hp
      rcases hp with rfl | rfl | rfl
      · exact hd1
      · exact hamt1
      · exact hm2
    simp only [extract_transaction_details, hsplit, List.get?, List.find?,
      hcd, hca, hcm]
    simp
    intro a ha h
    exact ha3 (h ▸ ha)
  · -- no description, category cg
    obtain ⟨hc0, hc1, hc2, hc3⟩ := hcg cg rfl
    have harr1 : '│' ∉ '→' :: ' ' :: cg :=
      not_mem_cons_of_ne_of_not_mem (by decide)
        (not_mem_cons_of_ne_of_not_mem (by decide) hc2)
    have hcarr : ('→' :: ' ' :: cg).contains '→' = true := by
      simp [List.contains_cons]
    have harrsplit : splitOnChar '→' ('→' :: ' ' :: cg) = [[], ' ' :: cg] := by
      rw [splitOnChar, if_pos rfl,
        splitOnChar_of_not_mem (not_mem_cons_of_ne_of_not_mem (by decide) hc3)]
    have hform : format_transaction_text dateStr amountStr merchant none (some cg)
        = joinSep '│' [dateStr, '₹' :: amountStr, merchant, '→' :: ' ' :: cg] := by
      simp [format_transaction_text, if_neg hm0, hm1, if_neg hc0]
    have hsplit : splitOnChar '│'
        (format_transaction_text dateStr amountStr merchant none (some cg))
        = [dateStr, '₹' :: amountStr, merchant, '→' :: ' ' :: cg] := by
      rw [hform]
      refine splitOnChar_joinSep (by simp) ?_
      intro p hp
      simp only [List.mem_cons, List.not_mem_nil, or_false] at hp
      rcases hp with rfl | rfl | rfl | rfl
      · exact hd1
      · exact hamt1
      · exact hm2
      · exact harr1
    simp only [extract_transaction_details, hsplit, List.get?, List.find?,
      hcd, hca, hcm, hcarr]
    simp [harrsplit, pyStrip_cons_space, hc1]
    intro a ha h
    exact ha3 (h ▸ ha)
  · -- description d, no category
    obtain ⟨hd0, hds1, hds2, hds3⟩ := hde d rfl
    have hcdesc : d.contains '→' = false := contains_eq_false_of_not_mem hds3
    have hform : format_transaction_text dateStr amountStr merchant (some d) none
        = joinSep '│' [dateStr, '₹' :: amountStr, merchant, d] := by
      simp [format_transaction_text, if_neg hm0, hm1, hds1, if_neg hd0]
    have hsplit : splitOnChar '│'
        (format_transaction_text dateStr amountStr merchant (some d) none)
        = [dateStr, '₹' :: amountStr, merchant, d] := by
      rw [hform]
      refine splitOnChar_joinSep (by simp) ?_
      intro p hp
      simp only [List.mem_cons, List.not_mem_nil, or_false] at hp
      rcases hp with rfl | rfl | rfl | rfl
      · exact hd1
      · exact hamt1
      · exact hm2
      · exact hds2
    simp only [extract_transaction_details, hsplit, List.get?, List.find?,
      hcd, hca, hcm, hcdesc]
    simp
    intro a ha h
    exact ha3 (h ▸ ha)
  · -- description d and category cg
    obtain ⟨hd0, hds1, hds2, hds3⟩ := hde d rfl
    obtain ⟨hc0, hc1, hc2, hc3⟩ := hcg cg rfl
    have hcdesc : d.contains '→' = false := contains_eq_false_of_not_mem hds3
    have harr1 : '│' ∉ '→' :: ' ' :: cg :=
      not_mem_cons_of_ne_of_not_mem (by decide)
        (not_mem_cons_of_ne_of_not_mem (by decide) hc2)
    have hcarr : ('→' :: ' ' :: cg).contains '→' = true := by
      simp [List.contains_cons]
    have harrsplit : splitOnChar '→' ('→' :: ' ' :: cg) = [[], ' ' :: cg] := by
      rw [splitOnChar, if_pos rfl,
        splitOnChar_of_not_mem (not_mem_cons_of_ne_of_not_mem (by decide) hc3)]
    have hform : format_transaction_text dateStr amountStr merchant (some d) (some cg)
        = joinSep '│' [dateStr, '₹' :: amountStr, merchant, d, '→' :: ' ' :: cg] := by
      simp [format_transaction_text, if_neg hm0, hm1, hds1, if_neg hd0, if_neg hc0]
    have hsplit : splitOnChar '│'
        (format_transaction_text dateStr amountStr merchant (some d) (some cg))
        = [dateStr, '₹' :: amountStr, merchant, d, '→' :: ' ' :: cg] := by
      rw [hform]
      refine splitOnChar_joinSep (by simp) ?_
      intro p hp
      simp only [List.mem_cons, List.not_mem_nil, or_false] at hp
      rcases hp with rfl | rfl | rfl | rfl | rfl
      · exact hd1
      · exact hamt1
      · exact hm2
      · exact hds2
      · exact harr1
    simp only [extract_transaction_details, hsplit, List.get?, List.find?,
      hcd, hca, hcm, hcdesc, hcarr]
    simp [harrsplit, pyStrip_cons_space, hc1]
    intro a ha h
    exact ha3 (h ▸ ha)

/-- C7 witness: the round-trip theorem applied at a concrete transaction. -/
theorem C7_roundtrip_witness :
    extract_transaction_details (format_transaction_text
        "2024-01-15".data "250.0".data "Starbucks".data
        (some "latte and cake".data) (some "Food & Dining".data)) =
      ⟨some "2024-01-15".data, some "250.0".data, some "Starbucks".data,
        some "latte and cake".data, some "Food & Dining".data⟩ :=
  C7_roundtrip "2024-01-15".data "250.0".data "Starbucks".data
    (some "latte and cake".data) (some "Food & Dining".data)
    (by decide) (by decide) (by decide) (by decide) (by decide)
    (by decide) (by decide) (by decide) (by decide)
    (by intro d hd; cases hd; exact ⟨by decide, by decide, by decide, by decide⟩)
    (by intro cg hc; cases hc; exact ⟨by decide, by decide, by decide, by decide⟩)

/-! ## Authentication: bearer-token verification

Source: `app/servers/gemini/auth/jwt_auth.py`, `SupabaseAuthService.verify_token`
(lines 93-151).  The base64 padding + `base64.urlsafe_b64decode` + `json.loads`
pipeline is foreign-library code and enters the model as an abstract
`decodePayload` function from the payload segment to an optional payload
record (`none` models any decode exception, which the generic handler maps
to the 401 "Token verification failed").  Timestamps are integers; `now`
models the current UTC timestamp.
-/

/-- Decoded JWT payload fields read by `verify_token` (via `payload.get`:
absent keys are `none`). -/
structure JwtPayload where
  sub : Option (List Char)
  email : Option (List Char)
  role : Option (List Char)
  aud : Option (List Char)
  iss : Option (List Char)
  exp : Option Int
  iat : Option Int
  deriving DecidableEq, Repr

/-- The `UserInfo` model from `app/core/models/auth_models.py` as populated
by `verify_token`. -/
structure UserInfo where
  id : List Char
  email : List Char
  role : Option (List Char)
  aud : Option (List Char)
  exp : Int
  iat : Option Int
  iss : Option (List Char)
  sub : List Char
  deriving DecidableEq, Repr

/-- Python truthiness test `not x` for an optional string: true when the
value is absent or the empty string. -/
def pyFalsy : Option (List Char) → Bool
  | none => true
  | some s => s.isEmpty

/-- Model of `SupabaseAuthService.verify_token`: split the token on `.`;
reject unless there are exactly 3 segments; decode the payload (second)
segment; reject when `sub` or `email` is falsy; reject when
`payload.get("exp", 0)` is before `now`; otherwise build the `UserInfo`
from the payload fields.  The signature segments are never inspected. -/
def verify_token (decodePayload : List Char → Option JwtPayload)
    (now : Int) (token : List Char) : Except (List Char) UserInfo :=
  let parts := splitOnChar '.' token
  if parts.length ≠ 3 then .error "Invalid token format".data
  else
    match decodePayload (parts.getD 1 []) with
    | none => .error "Token verification failed".data
    | some payload =>
      if pyFalsy payload.sub || pyFalsy payload.email then
        .error "Invalid token payload".data
      else if payload.exp.getD 0 < now then
        .error "Token expired".data
      else
        .ok { id := payload.sub.getD [], email := payload.email.getD [],
              role := payload.role, aud := payload.aud,
              exp := payload.exp.getD 0, iat := payload.iat,
              iss := payload.iss, sub := payload.sub.getD [] }

/-- C6: `verify_token` fails with an Unauthorized-kind error exactly when
the token does not have three dot-separated segments, or the payload does
not decode, or its subject or email is missing (Python-falsy), or its
expiry (defaulting to 0 when absent) is before `now`; on success it returns
the `UserInfo` carrying the payload fields; and the result never depends on
the header and signature segments (no signature check). -/
theorem C6_verify_token (decodePayload : List Char → Option JwtPayload)
    (now : Int) (token : List Char) :
    ((∃ e, verify_token decodePayload now token = .error e) ↔
      ((splitOnChar '.' token).length ≠ 3 ∨
        decodePayload ((splitOnChar '.' token).getD 1 []) = none ∨
        (∃ p, decodePayload ((splitOnChar '.' token).getD 1 []) = some p ∧
          (pyFalsy p.sub = true ∨ pyFalsy p.email = true ∨ p.exp.getD 0 < now)))) ∧
    (∀ p u, decodePayload ((splitOnChar '.' token).getD 1 []) = some p →
      verify_token decodePayload now token = .ok u →
      u.sub = p.sub.getD [] ∧ u.id = p.sub.getD [] ∧ u.email = p.email.getD [] ∧
      u.role = p.role ∧ u.aud = p.aud ∧ u.exp = p.exp.getD 0 ∧
      u.iat = p.iat ∧ u.iss = p.iss) ∧
    (∀ hd1 hd2 sg1 sg2 pl : List Char, '.' ∉ hd1 → '.' ∉ hd2 → '.' ∉ sg1 →
      '.' ∉ sg2 → '.' ∉ pl →
      verify_token decodePayload now (hd1 ++ '.' :: pl ++ '.' :: sg1)
        = verify_token decodePayload now (hd2 ++ '.' :: pl ++ '.' :: sg2)) := by
  refine ⟨?_, ?_, ?_⟩
  · unfold verify_token
    by_cases hlen : (splitOnChar '.' token).length ≠ 3
    · simp [hlen]
    · simp only [hlen, if_false, if_neg hlen]
      cases hdec : decodePayload ((splitOnChar '.' token).getD 1 []) with
      | none => simp
      | some p =>
        by_cases hfal : pyFalsy p.sub || pyFalsy p.email
        · simp only [hfal, if_true, if_pos hfal]
          simp only [Bool.or_eq_true] at hfal
          constructor
          · intro _
            exact Or.inr (Or.inr ⟨p, rfl, by tauto⟩)
          · intro _
            exact ⟨_, rfl⟩
        · simp only [hfal, if_neg hfal]
          by_cases hexp : p.exp.getD 0 < now
          · simp only [if_pos hexp]
            constructor
            · intro _
              exact Or.inr (Or.inr ⟨p, rfl, Or.inr (Or.inr hexp)⟩)
            · intro _
              exact ⟨_, rfl⟩
          · simp only [if_neg hexp]
            constructor
            · rintro ⟨e, he⟩
              exact absurd he (by simp)
            · rintro (h | h | ⟨q, hq, hbad⟩)
              · exact h.elim
              · exact absurd h (by simp)
              · rw [show q = p from Option.some.inj hq.symm] at hbad
                rcases hbad with h | h | h
                · exact absurd h (by simp [Bool.or_eq_true] at hfal; simp [hfal.1])
                · exact absurd h (by simp [Bool.or_eq_true] at hfal; simp [hfal.2])
                · exact absurd h hexp
  · intro p u hdec hok
    unfold verify_token at hok
    by_cases hlen : (splitOnChar '.' token).length ≠ 3
    · simp [hlen] at hok
    · by_cases hfal : (pyFalsy p.sub || pyFalsy p.email) = true
      · simp only [hlen, if_false, if_neg hlen, hdec, hfal, if_true] at hok
        exact absurd hok (by simp)
      · by_cases hexp : p.exp.getD 0 < now
        · simp only [hlen, if_false, if_neg hlen, hdec, hfal,
            Bool.false_eq_true, if_false, if_pos hexp] at hok
          exact absurd hok (by simp)
        · simp only [hlen, if_false, if_neg hlen, hdec, hfal, hexp,
            Bool.false_eq_true, if_false, Except.ok.injEq] at hok
          subst hok
          exact ⟨rfl, rfl, rfl, rfl, rfl, rfl, rfl, rfl⟩
  · intro hd1 hd2 sg1 sg2 pl h1 h2 h3 h4 h5
    have split1 : ∀ hd sg : List Char, '.' ∉ hd → '.' ∉ sg →
        splitOnChar '.' (hd ++ '.' :: pl ++ '.' :: sg) = [hd, pl, sg] := by
      intro hd sg hh hs
      rw [show hd ++ '.' :: pl ++ '.' :: sg = hd ++ '.' :: (pl ++ '.' :: sg) by simp,
        splitOnChar_append_cons _ hh, splitOnChar_append_cons _ h5,
        splitOnChar_of_not_mem hs]
    unfold verify_token
    rw [split1 hd1 sg1 h1 h3, split1 hd2 sg2 h2 h4]
    simp

/-- Concrete payload decoder used to exercise `verify_token`. -/
def decode0 : List Char → Option JwtPayload := fun s =>
  if s = "PAYLOAD".data then
    some { sub := some "user-1".data, email := some "user@example.com".data,
           role := some "authenticated".data, aud := none, iss := none,
           exp := some 2000, iat := some 100 }
  else none

/-- C6 witness: the verification theorem instantiated at a concrete
unexpired token, with the header/signature-independence part exercised on
two concrete tokens sharing a payload. -/
theorem C6_verify_token_witness :
    (let u : UserInfo :=
      { id := "user-1".data, email := "user@example.com".data,
        role := some "authenticated".data, aud := none, exp := 2000,
        iat := some 100, iss := none, sub := "user-1".data }
     let p : JwtPayload :=
      { sub := some "user-1".data, email := some "user@example.com".data,
        role := some "authenticated".data, aud := none, iss := none,
        exp := some 2000, iat := some 100 }
     u.sub = p.sub.getD [] ∧ u.id = p.sub.getD [] ∧ u.email = p.email.getD [] ∧
     u.role = p.role ∧ u.aud = p.aud ∧ u.exp = p.exp.getD 0 ∧
     u.iat = p.iat ∧ u.iss = p.iss) ∧
    verify_token decode0 1500 ("HDR".data ++ '.' :: "PAYLOAD".data ++ '.' :: "SIG".data)
      = verify_token decode0 1500 ("X2".data ++ '.' :: "PAYLOAD".data ++ '.' :: "G2".data) :=
  ⟨(C6_verify_token decode0 1500 "HDR.PAYLOAD.SIG".data).2.1 _ _ (by decide) rfl,
   (C6_verify_token decode0 1500 "HDR.PAYLOAD.SIG".data).2.2 "HDR".data "X2".data
     "SIG".data "G2".data "PAYLOAD".data (by decide) (by decide) (by decide)
     (by decide) (by decide)⟩

/-! ## Transaction service: spending summary

Source: `app/core/services/transaction_service.py`,
`TransactionService.get_spending_summary` (lines 54-109).  Time is modelled
as `ℚ` measured in days (`timedelta(days=n)` is `n`); `now` is
`datetime.now()` at call time.  Monetary amounts are `ℚ` (exact `Decimal`
arithmetic; the `float(...)` conversions at the response boundary are the
identity in this model).  The repository fetch
`get_transactions(skip=0, limit=1000, category_id)` is external I/O: the
model receives the fetched rows as the `txs` argument, and the category
repository as the lookup `catName`.
-/

/-- One fetched transaction row, as read by the summary loop. -/
structure TxnRow where
  date : ℚ
  amount : ℚ
  category_id : Option Nat
  deriving DecidableEq, Repr

/-- Summary dict returned by `get_spending_summary`. -/
structure SpendingSummary where
  period : String
  start_date : ℚ
  end_date : ℚ
  total_spent : ℚ
  transaction_count : Nat
  average_transaction : ℚ
  category_breakdown : List (String × ℚ)
  deriving DecidableEq, Repr

/-- Window size selected by the `period` if-chain: week 7, month 30,
year 365, anything else 30. -/
def periodDays (period : String) : ℚ :=
  if period = "week" then 7
  else if period = "month" then 30
  else if period = "year" then 365
  else 30

/-- The date filter `start_date <= transaction.date <= end_date`. -/
def inWindow (startD endD : ℚ) (t : TxnRow) : Bool :=
  decide (startD ≤ t.date) && decide (t.date ≤ endD)

/-- The `category_map` dict: an id is mapped (to its category name) exactly
when some in-window transaction carries it and the category repository
resolves it. -/
def category_map (startD endD : ℚ) (txs : List TxnRow)
    (catName : Nat → Option String) (c : Nat) : Option String :=
  if txs.any (fun t => inWindow startD endD t && t.category_id == some c) then
    catName c
  else none

/-- The `category_totals[name] += amount` dict update: add into the
existing entry, or append a fresh entry at the end. -/
def addToBreakdown (bd : List (String × ℚ)) (name : String) (amt : ℚ) :
    List (String × ℚ) :=
  match bd with
  | [] => [(name, amt)]
  | (n, v) :: rest =>
    if n = name then (n, v + amt) :: rest
    else (n, v) :: addToBreakdown rest name amt

/-- Body of the summary loop: an in-window transaction adds its amount to
the running total, bumps the count, and, when its category id is in
`category_map`, adds its amount into the per-name breakdown. -/
def summaryStep (startD endD : ℚ) (catMap : Nat → Option String)
    (acc : ℚ × Nat × List (String × ℚ)) (t : TxnRow) :
    ℚ × Nat × List (String × ℚ) :=
  if inWindow startD endD t then
    (acc.1 + t.amount, acc.2.1 + 1,
      match t.category_id with
      | some c =>
        match catMap c with
        | some name => addToBreakdown acc.2.2 name t.amount
        | none => acc.2.2
      | none => acc.2.2)
  else acc

/-- Model of `TransactionService.get_spending_summary`. -/
def get_spending_summary (now : ℚ) (period : String) (txs : List TxnRow)
    (catName : Nat → Option String) : SpendingSummary :=
  let end_date := now
  let start_date := now - periodDays period
  let catMap := category_map start_date end_date txs catName
  let res := txs.foldl (summaryStep start_date end_date catMap) (0, 0, [])
  { period := period
    start_date := start_date
    end_date := end_date
    total_spent := res.1
    transaction_count := res.2.1
    average_transaction := if res.2.1 > 0 then res.1 / (res.2.1 : ℚ) else 0
    category_breakdown := res.2.2 }

/-- Resolution of a row to a breakdown key: its category id looked up in the
category map. -/
def contributes (startD endD : ℚ) (catMap : Nat → Option String)
    (name : String) (t : TxnRow) : Bool :=
  inWindow startD endD t && (t.category_id.bind catMap == some name)

theorem foldl_summary_total (startD endD : ℚ) (catMap : Nat → Option String) :
    ∀ (txs : List TxnRow) (t0 : ℚ) (c0 : Nat) (bd0 : List (String × ℚ)),
      (txs.foldl (summaryStep startD endD catMap) (t0, c0, bd0)).1
        = t0 + ((txs.filter (inWindow startD endD)).map TxnRow.amount).sum := by
  intro txs
  induction txs with
  | nil => intro t0 c0 bd0; simp
  | cons t ts ih =>
    intro t0 c0 bd0
    by_cases hw : inWindow startD endD t
    · simp only [List.foldl_cons, summaryStep, if_pos hw, List.filter_cons,
        hw, if_true, List.map_cons, List.sum_cons, ih, add_assoc]
    · simp only [List.foldl_cons, summaryStep, if_neg hw, List.filter_cons]
      have hw' : inWindow startD endD t = false := by
        revert hw; cases inWindow startD endD t <;> simp
      simp only [hw', Bool.false_eq_true, if_false, ih]

theorem foldl_summary_count (startD endD : ℚ) (catMap : Nat → Option String) :
    ∀ (txs : List TxnRow) (t0 : ℚ) (c0 : Nat) (bd0 : List (String × ℚ)),
      (txs.foldl (summaryStep startD endD catMap) (t0, c0, bd0)).2.1
        = c0 + (txs.filter (inWindow startD endD)).length := by
  intro txs
  induction txs with
  | nil => intro t0 c0 bd0; simp
  | cons t ts ih =>
    intro t0 c0 bd0
    by_cases hw : inWindow startD endD t
    · simp only [List.foldl_cons, summaryStep, if_pos hw, List.filter_cons,
        hw, if_true, List.length_cons, ih]
      omega
    · simp only [List.foldl_cons, summaryStep, if_neg hw, List.filter_cons]
      have hw' : inWindow startD endD t = false := by
        revert hw; cases inWindow startD endD t <;> simp
      simp only [hw', Bool.false_eq_true, if_false, ih]

theorem lookup_addToBreakdown (bd : List (String × ℚ)) (n : String) (amt : ℚ)
    (name : String) :
    (addToBreakdown bd n amt).lookup name =
      if name = n then some (((bd.lookup name).getD 0) + amt)
      else bd.lookup name := by
  induction bd with
  | nil =>
    by_cases h : name = n
    · simp [addToBreakdown, List.lookup, h]
    · simp [addToBreakdown, List.lookup, h,
        show (name == n) = false by simpa using h]
  | cons e rest ih =>
    obtain ⟨m, v⟩ := e
    by_cases hmn : m = n
    · subst hmn
      by_cases h : name = m
      · subst h
        simp [addToBreakdown, List.lookup]
      · simp [addToBreakdown, List.lookup, h,
          show (name == m) = false by simpa using h]
    · by_cases h : name = m
      · subst h
        simp [addToBreakdown, List.lookup, hmn]
      · simp [addToBreakdown, List.lookup,
          show (m = n) = False by simpa using hmn,
          show (name == m) = false by simpa using h, ih]

theorem foldl_summary_breakdown (startD endD : ℚ) (catMap : Nat → Option String)
    (name : String) :
    ∀ (txs : List TxnRow) (t0 : ℚ) (c0 : Nat) (bd0 : List (String × ℚ)),
      ((txs.foldl (summaryStep startD endD catMap) (t0, c0, bd0)).2.2).lookup name =
        if txs.any (contributes startD endD catMap name) then
          some (((bd0.lookup name).getD 0) +
            ((txs.filter (contributes startD endD catMap name)).map TxnRow.amount).sum)
        else bd0.lookup name := by
  intro txs
  induction txs with
  | nil => intro t0 c0 bd0; simp
  | cons t ts ih =>
    intro t0 c0 bd0
    simp only [List.foldl_cons, List.any_cons, List.filter_cons]
    by_cases hw : inWindow startD endD t = true
    · cases hcid : t.category_id with
      | none =>
        have hcon : contributes startD endD catMap name t = false := by
          simp [contributes, hcid]
        simp only [summaryStep, if_pos hw, hcid]
        simp only [hcon, Bool.false_or, Bool.false_eq_true, if_false, ih]
      | some c =>
        cases hcm : catMap c with
        | none =>
          have hcon : contributes startD endD catMap name t = false := by
            simp [contributes, hcid, hcm]
          simp only [summaryStep, if_pos hw, hcid, hcm]
          simp only [hcon, Bool.false_or, Bool.false_eq_true, if_false, ih]
        | some name2 =>
          by_cases hnn : name2 = name
          · have hcon : contributes startD endD catMap name t = true := by
              simp [contributes, hw, hcid, hcm, hnn]
            simp only [summaryStep, if_pos hw, hcid, hcm, hnn]
            simp only [hcon, Bool.true_or, if_true, ih, lookup_addToBreakdown,
              eq_self_iff_true, if_true, Option.getD_some, List.map_cons,
              List.sum_cons]
            by_cases hany : ts.any (contributes startD endD catMap name) = true
            · simp only [hany, if_true, Option.getD_some, add_assoc]
            · have hany' : ts.any (contributes startD endD catMap name) = false := by
                revert hany; cases ts.any (contributes startD endD catMap name) <;> simp
              have hfil : ts.filter (contributes startD endD catMap name) = [] := by
                rw [List.filter_eq_nil_iff]
                intro a ha hpa
                rw [List.any_eq_false] at hany'
                exact hany' a ha hpa
              simp only [hany', Bool.false_eq_true, if_false, hfil,
                List.map_nil, List.sum_nil, add_zero, Option.getD_some]
          · have hcon : contributes startD endD catMap name t = false := by
              simp [contributes, hcid, hcm, hnn]
            have hne : ¬(name = name2) := fun h => hnn h.symm
            simp only [summaryStep, if_pos hw, hcid, hcm]
            simp only [hcon, Bool.false_or, Bool.false_eq_true, if_false, ih,
              lookup_addToBreakdown, if_neg hne]
    · have hw' : inWindow startD endD t = false := by
        revert hw; cases inWindow startD endD t <;> simp
      have hcon : contributes startD endD catMap name t = false := by
        simp [contributes, hw']
      simp only [summaryStep, hw', Bool.false_eq_true, if_false, hcon,
        Bool.false_or, ih]

/-- C1: the spending summary measures its window back from `now` (week 7
days, month 30, year 365, anything else 30), keeps exactly the fetched
transactions whose date lies in the window, and returns their total, their
count, the average (0 when the count is 0), and a per-category-name
breakdown summing the window amounts per resolved category name; in
particular three in-window transactions of 10, 20 and 30 give total 60,
count 3, average 20. -/
theorem C1_get_spending_summary :
    (∀ (now : ℚ) (period : String) (txs : List TxnRow)
        (catName : Nat → Option String),
      (get_spending_summary now period txs catName).end_date = now ∧
      (get_spending_summary now period txs catName).start_date
        = now - periodDays period ∧
      (period = "week" → periodDays period = 7) ∧
      (period = "month" → periodDays period = 30) ∧
      (period = "year" → periodDays period = 365) ∧
      (period ≠ "week" → period ≠ "month" → period ≠ "year" →
        periodDays period = 30) ∧
      (get_spending_summary now period txs catName).total_spent
        = ((txs.filter (inWindow (now - periodDays period) now)).map
            TxnRow.amount).sum ∧
      (get_spending_summary now period txs catName).transaction_count
        = (txs.filter (inWindow (now - periodDays period) now)).length ∧
      ((get_spending_summary now period txs catName).transaction_count = 0 →
        (get_spending_summary now period txs catName).average_transaction = 0) ∧
      ((get_spending_summary now period txs catName).transaction_count ≠ 0 →
        (get_spending_summary now period txs catName).average_transaction
          = (get_spending_summary now period txs catName).total_spent
            / ((get_spending_summary now period txs catName).transaction_count : ℚ)) ∧
      (∀ name : String,
        ((get_spending_summary now period txs catName).category_breakdown).lookup name
          = if txs.any (contributes (now - periodDays period) now
                (category_map (now - periodDays period) now txs catName) name) then
              some (((txs.filter (contributes (now - periodDays period) now
                (category_map (now - periodDays period) now txs catName) name)).map
                  TxnRow.amount).sum)
            else none)) ∧
    ((get_spending_summary 100 "month"
        [⟨95, 10, none⟩, ⟨96, 20, none⟩, ⟨97, 30, none⟩]
        (fun _ => none)).total_spent = 60 ∧
      (get_spending_summary 100 "month"
        [⟨95, 10, none⟩, ⟨96, 20, none⟩, ⟨97, 30, none⟩]
        (fun _ => none)).transaction_count = 3 ∧
      (get_spending_summary 100 "month"
        [⟨95, 10, none⟩, ⟨96, 20, none⟩, ⟨97, 30, none⟩]
        (fun _ => none)).average_transaction = 20) := by
  constructor
  · intro now period txs catName
    refine ⟨rfl, rfl, ?_, ?_, ?_, ?_, ?_, ?_, ?_, ?_, ?_⟩
    · intro h; rw [h]; decide
    · intro h; rw [h]; decide
    · intro h; rw [h]; decide
    · intro h1 h2 h3; simp [periodDays, h1, h2, h3]
    · simp only [get_spending_summary]
      rw [foldl_summary_total]
      simp
    · simp only [get_spending_summary]
      rw [foldl_summary_count]
      simp
    · intro h
      simp only [get_spending_summary] at h ⊢
      simp [h]
    · intro h
      simp only [get_spending_summary] at h ⊢
      rw [if_pos (Nat.pos_of_ne_zero h)]
    · intro name
      simp only [get_spending_summary]
      rw [foldl_summary_breakdown]
      simp [List.lookup]
  · have hw : ¬("month" = "week") := by decide
    have hconc : get_spending_summary 100 "month"
        [⟨95, 10, none⟩, ⟨96, 20, none⟩, ⟨97, 30, none⟩] (fun _ => none) =
        { period := "month", start_date := 70, end_date := 100,
          total_spent := 60, transaction_count := 3,
          average_transaction := 20, category_breakdown := [] } := by
      simp only [get_spending_summary, summaryStep, inWindow, category_map,
        addToBreakdown, periodDays, List.foldl, List.any, if_neg hw]
      norm_num
    exact ⟨by rw [hconc], by rw [hconc], by rw [hconc]⟩

/-- C1 witness: the summary theorem instantiated at concrete inputs,
discharging the period and the non-zero-count hypotheses. -/
theorem C1_get_spending_summary_witness :
    periodDays "week" = 7 ∧
    (get_spending_summary 50 "year" [⟨40, 5, none⟩]
        (fun _ => none)).average_transaction
      = (get_spending_summary 50 "year" [⟨40, 5, none⟩]
          (fun _ => none)).total_spent
        / ((get_spending_summary 50 "year" [⟨40, 5, none⟩]
            (fun _ => none)).transaction_count : ℚ) :=
  ⟨(C1_get_spending_summary.1 0 "week" [] (fun _ => none)).2.2.1 rfl,
   (C1_get_spending_summary.1 50 "year" [⟨40, 5, none⟩]
      (fun _ => none)).2.2.2.2.2.2.2.2.2.1 (by
        have h1 : ¬("year" = "week") := by decide
        have h2 : ¬("year" = "month") := by decide
        norm_num [get_spending_summary, summaryStep, inWindow, periodDays,
          category_map, if_neg h1, if_neg h2])⟩

/-! ## Transaction repository: partial update

Source: `app/core/repositories/transaction_repository.py`,
`TransactionRepository.update_transaction` (lines 70-92): the update dict
starts as `{"updated_at": now}` and gains exactly the fields of the
`TransactionUpdate` that are not `None`; the store's row update merges the
dict column-wise, leaving unmentioned columns unchanged.
-/

/-- A stored transaction row. -/
structure TxnRecord where
  date : ℚ
  amount : ℚ
  merchant : String
  category_id : Option Nat
  is_recurring : Bool
  notes : Option String
  created_at : ℚ
  updated_at : ℚ
  deriving DecidableEq, Repr

/-- The `TransactionUpdate` request model: every field optional, absence
meaning "leave unchanged". -/
structure TransactionUpdate where
  date : Option ℚ
  amount : Option ℚ
  merchant : Option String
  category_id : Option Nat
  is_recurring : Option Bool
  notes : Option String
  deriving DecidableEq, Repr

/-- Model of `update_transaction`: column-wise merge of the supplied fields
into the stored row, with `updated_at` always set to `now`. -/
def update_transaction (row : TxnRecord) (upd : TransactionUpdate)
    (now : ℚ) : TxnRecord :=
  { date := upd.date.getD row.date
    amount := upd.amount.getD row.amount
    merchant := upd.merchant.getD row.merchant
    category_id :=
      match upd.category_id with
      | some c => some c
      | none => row.category_id
    is_recurring := upd.is_recurring.getD row.is_recurring
    notes :=
      match upd.notes with
      | some n => some n
      | none => row.notes
    created_at := row.created_at
    updated_at := now }

/-- C9: after an update, `updated_at` is refreshed to now, every supplied
field holds the supplied value, every absent field is unchanged, and in
particular updating only the merchant leaves the amount unchanged. -/
theorem C9_update_transaction (row : TxnRecord) (upd : TransactionUpdate)
    (now : ℚ) :
    (update_transaction row upd now).updated_at = now ∧
    (update_transaction row upd now).created_at = row.created_at ∧
    (∀ v, upd.date = some v → (update_transaction row upd now).date = v) ∧
    (upd.date = none → (update_transaction row upd now).date = row.date) ∧
    (∀ v, upd.amount = some v → (update_transaction row upd now).amount = v) ∧
    (upd.amount = none →
      (update_transaction row upd now).amount = row.amount) ∧
    (∀ v, upd.merchant = some v →
      (update_transaction row upd now).merchant = v) ∧
    (upd.merchant = none →
      (update_transaction row upd now).merchant = row.merchant) ∧
    (∀ v, upd.category_id = some v →
      (update_transaction row upd now).category_id = some v) ∧
    (upd.category_id = none →
      (update_transaction row upd now).category_id = row.category_id) ∧
    (∀ v, upd.is_recurring = some v →
      (update_transaction row upd now).is_recurring = v) ∧
    (upd.is_recurring = none →
      (update_transaction row upd now).is_recurring = row.is_recurring) ∧
    (∀ v, upd.notes = some v →
      (update_transaction row upd now).notes = some v) ∧
    (upd.notes = none → (update_transaction row upd now).notes = row.notes) ∧
    (∀ m, upd.merchant = some m → upd.amount = none →
      (update_transaction row upd now).amount = row.amount ∧
      (update_transaction row upd now).merchant = m ∧
      (update_transaction row upd now).updated_at = now) := by
  refine ⟨rfl, rfl, ?_, ?_, ?_, ?_, ?_, ?_, ?_, ?_, ?_, ?_, ?_, ?_, ?_⟩
  all_goals
    first
    | (intro v h1 h2; exact ⟨by simp [update_transaction, h2],
        by simp [update_transaction, h1], rfl⟩)
    | (intro v h; simp [update_transaction, h])
    | (intro h; simp [update_transaction, h])

/-- C9 witness: updating only the merchant at a concrete row keeps the
amount at 50 and refreshes `updated_at`. -/
theorem C9_update_transaction_witness :
    (update_transaction
        { date := 1, amount := 50, merchant := "Old", category_id := none,
          is_recurring := false, notes := none, created_at := 1,
          updated_at := 1 }
        { date := none, amount := none, merchant := some "New",
          category_id := none, is_recurring := none, notes := none }
        2).amount = 50 ∧
    (update_transaction
        { date := 1, amount := 50, merchant := "Old", category_id := none,
          is_recurring := false, notes := none, created_at := 1,
          updated_at := 1 }
        { date := none, amount := none, merchant := some "New",
          category_id := none, is_recurring := none, notes := none }
        2).merchant = "New" ∧
    (update_transaction
        { date := 1, amount := 50, merchant := "Old", category_id := none,
          is_recurring := false, notes := none, created_at := 1,
          updated_at := 1 }
        { date := none, amount := none, merchant := some "New",
          category_id := none, is_recurring := none, notes := none }
        2).updated_at = 2 :=
  (C9_update_transaction
      { date := 1, amount := 50, merchant := "Old", category_id := none,
        is_recurring := false, notes := none, created_at := 1,
        updated_at := 1 }
      { date := none, amount := none, merchant := some "New",
        category_id := none, is_recurring := none, notes := none }
      2).2.2.2.2.2.2.2.2.2.2.2.2.2.2 "New" rfl rfl

/-! ## Later-generation tool layer: update_expense response amount

Source: `app/servers/mcp/tools.py`, `update_expense` (lines ~253-335).
The category-name resolution, tag replacement and persistence are external
I/O; the model takes the stored row, the already-resolved optional argument
values, and `now`, applies the same update dict construction (amount stored
as `Decimal(str(abs(amount)))`), and computes the response `amount` field
exactly as the source line does:
`float(final.amount) * (-1 if amount < 0 else 1) if amount is not None
else float(final.amount) * -1`.
-/

/-- Arguments of the `update_expense` tool after category resolution. -/
structure UpdateExpenseArgs where
  amount : Option ℚ
  merchant : Option String
  date : Option ℚ
  is_recurring : Option Bool
  description : Option String
  category_id : Option Nat
  deriving DecidableEq, Repr

/-- Model of `update_expense`: build the update (absolute value of the
amount argument), apply it when any field was supplied, and restate the
final row with the response amount sign rule. -/
def update_expense (row : TxnRecord) (args : UpdateExpenseArgs)
    (now : ℚ) : TxnRecord × ℚ :=
  let upd : TransactionUpdate :=
    { date := args.date
      amount := args.amount.map (fun a => |a|)
      merchant := args.merchant
      category_id := args.category_id
      is_recurring := args.is_recurring
      notes := args.description }
  let anyField := args.amount.isSome || args.merchant.isSome ||
    args.date.isSome || args.is_recurring.isSome ||
    args.description.isSome || args.category_id.isSome
  let final := if anyField then update_transaction row upd now else row
  let respAmount :=
    match args.amount with
    | some a => final.amount * (if a < 0 then -1 else 1)
    | none => final.amount * (-1)
  (final, respAmount)

/-- C10: whenever `update_expense` is called without an `amount` argument,
the `amount` field of the returned result is the stored transaction amount
multiplied by -1, regardless of the stored sign. -/
theorem C10_update_expense_amount (row : TxnRecord) (args : UpdateExpenseArgs)
    (now : ℚ) (h : args.amount = none) :
    (update_expense row args now).2 = -row.amount := by
  have hamt : (update_expense row args now).1.amount = row.amount := by
    simp only [update_expense]
    split
    · simp [update_transaction, h]
    · rfl
  simp only [update_expense, h] at hamt ⊢
  rw [hamt]
  ring

/-- C10 witness: concrete update of only the merchant returns the negated
stored amount. -/
theorem C10_update_expense_amount_witness :
    (update_expense
        { date := 1, amount := 50, merchant := "Old", category_id := none,
          is_recurring := false, notes := none, created_at := 1,
          updated_at := 1 }
        { amount := none, merchant := some "New", date := none,
          is_recurring := none, description := none, category_id := none }
        2).2 = -50 :=
  C10_update_expense_amount
    { date := 1, amount := 50, merchant := "Old", category_id := none,
      is_recurring := false, notes := none, created_at := 1, updated_at := 1 }
    { amount := none, merchant := some "New", date := none,
      is_recurring := none, description := none, category_id := none }
    2 rfl

/-! ## Categorization engine

Sources: `app/services/categorization_free.py`
(`FreeCategorizationService.categorize_transaction`,
`_rule_based_categorization`) and `app/services/categorization.py`
(`CategorizationService.categorize_transaction`).  The similarity search
(`find_similar_transactions`, a stored procedure round-trip) is external:
its result list enters the model as the `similar` argument.  The category
table fetch (`categories_crud.get_categories`) enters as the `cats` list.
The paid implementation's few-shot LLM branch is external and enters as the
opaque `llmBranch` result.
-/

/-- One similarity-search result row. -/
structure SimilarTx where
  similarity_score : ℚ
  confirmed_category_id : Nat
  confirmed_category_name : String
  deriving DecidableEq, Repr

/-- One category row from the categories table. -/
structure CatRow where
  category_id : Nat
  name : String
  deriving DecidableEq, Repr

/-- The transaction fields consulted by the rule-based fallback
(`transaction.merchant`; the `amount` local in the source is unused). -/
structure TxnInput where
  merchant : String
  deriving DecidableEq, Repr

/-- Contiguous-sublist test over character lists. -/
def containsSub (pat : List Char) : List Char → Bool
  | [] => pat.isEmpty
  | x :: xs => pat.isPrefixOf (x :: xs) || containsSub pat xs

/-- Python `kw in text` substring test. -/
def strContains (s pat : String) : Bool :=
  containsSub pat.data s.data

/-- Python `s.lower()`: character-wise lowercasing. -/
def pyLower (s : String) : String :=
  ⟨s.data.map Char.toLower⟩

/-- The rule table of `_rule_based_categorization` (lines 147-177),
verbatim: (keywords, category name, confidence). -/
def rules : List (List String × String × ℚ) :=
  [ (["restaurant", "cafe", "coffee", "starbucks", "pizza", "burger", "food"],
     "Food & Dining", 0.8),
    (["swiggy", "zomato", "uber eats"], "Food & Dining", 0.9),
    (["uber", "ola", "taxi", "cab", "lyft"], "Transportation", 0.9),
    (["petrol", "fuel", "gas station", "indian oil", "bharat petroleum"],
     "Transportation", 0.85),
    (["amazon", "flipkart", "myntra", "ajio", "store", "mart", "mall"],
     "Shopping", 0.8),
    (["electricity", "water", "gas", "internet", "broadband", "mobile",
      "phone"], "Bills & Utilities", 0.9),
    (["netflix", "spotify", "prime video", "hotstar", "movie", "cinema"],
     "Entertainment", 0.9),
    (["pharmacy", "medical", "doctor", "hospital", "clinic", "medicine",
      "lab", "labs", "test", "covid", "diagnostic", "scan", "xray", "x-ray"],
     "Health & Wellness", 0.85),
    (["gym", "fitness", "yoga"], "Health & Wellness", 0.8) ]

/-- The rule loop: first rule with a keyword occurring in the (lowercased)
merchant AND whose category name is found in the category table returns
that category and the rule confidence; a matching rule whose category is
missing from the table falls through to the next rule. -/
def ruleBasedGo (merchantLower : String) (cats : List CatRow) :
    List (List String × String × ℚ) → Option Nat × Option String × ℚ
  | [] => (none, none, 0)
  | (kws, cname, conf) :: rest =>
    if kws.any (fun kw => strContains merchantLower kw) then
      match cats.find? (fun cat => cat.name = cname) with
      | some cat => (some cat.category_id, some cat.name, conf)
      | none => ruleBasedGo merchantLower cats rest
    else ruleBasedGo merchantLower cats rest

/-- Model of `FreeCategorizationService._rule_based_categorization`
(lines 136-189): keyword matching against the lowercased merchant only. -/
def rule_based_categorization (txn : TxnInput) (cats : List CatRow) :
    Option Nat × Option String × ℚ :=
  ruleBasedGo (pyLower txn.merchant) cats rules

/-- Modelled from the spec (for comparison with the code): the claimed
free-variant rule matcher, with keywords matched against the lowercased
merchant and notes concatenated with a separating space. -/
def specC2_rule_based_with_notes (merchant notes : String)
    (cats : List CatRow) : Option Nat × Option String × ℚ :=
  ruleBasedGo (pyLower merchant ++ " " ++ pyLower notes) cats rules

/-- Per-category vote record (`category_votes[name]`). -/
structure VoteInfo where
  weight : ℚ
  count : Nat
  category_id : Nat
  deriving DecidableEq, Repr

/-- The vote-dict update for one similar transaction: add its similarity
score to its category entry (keeping the first-seen category id), or append
a fresh entry. -/
def addVote (votes : List (String × VoteInfo)) (tx : SimilarTx) :
    List (String × VoteInfo) :=
  match votes with
  | [] => [(tx.confirmed_category_name,
      { weight := tx.similarity_score, count := 1,
        category_id := tx.confirmed_category_id })]
  | (n, v) :: rest =>
    if n = tx.confirmed_category_name then
      (n, { weight := v.weight + tx.similarity_score,
            count := v.count + 1,
            category_id := v.category_id }) :: rest
    else (n, v) :: addVote rest tx

/-- The `category_votes` dict after the voting loop. -/
def buildVotes (similar : List SimilarTx) : List (String × VoteInfo) :=
  similar.foldl addVote []

/-- The `total_weight` accumulator: the sum of all similarity scores. -/
def totalWeight (similar : List SimilarTx) : ℚ :=
  (similar.map SimilarTx.similarity_score).sum

/-- Python `max(category_votes.items(), key=weight)`: first entry wins ties,
a later entry replaces only when strictly heavier. -/
def pickMax : List (String × VoteInfo) → Option (String × VoteInfo)
  | [] => none
  | e :: es =>
    some (es.foldl (fun b x => if x.2.weight > b.2.weight then x else b) e)

/-- Model of `FreeCategorizationService.categorize_transaction`
(lines 58-134): empty search result falls back to rules; a top score of at
least 0.85 adopts the top result directly; otherwise weighted voting, with
a sub-0.5 confidence discarded in favour of the rules. -/
def categorize_transaction_free (txn : TxnInput) (similar : List SimilarTx)
    (cats : List CatRow) : Option Nat × Option String × ℚ :=
  match similar with
  | [] => rule_based_categorization txn cats
  | s0 :: _ =>
    if s0.similarity_score ≥ 0.85 then
      (some s0.confirmed_category_id, some s0.confirmed_category_name,
        s0.similarity_score)
    else
      match pickMax (buildVotes similar) with
      | some best =>
        if best.2.weight / totalWeight similar < 0.5 then
          rule_based_categorization txn cats
        else
          (some best.2.category_id, some best.1,
            best.2.weight / totalWeight similar)
      | none => rule_based_categorization txn cats

/-- Model of `CategorizationService.categorize_transaction` (paid,
lines 52-135): empty search result returns no category at confidence 0; a
top score of at least 0.9 adopts the top result; otherwise the few-shot
LLM branch (external) decides. -/
def categorize_transaction_paid (similar : List SimilarTx)
    (llmBranch : Option Nat × Option String × ℚ) :
    Option Nat × Option String × ℚ :=
  match similar with
  | [] => (none, none, 0)
  | s0 :: _ =>
    if s0.similarity_score ≥ 0.9 then
      (some s0.confirmed_category_id, some s0.confirmed_category_name,
        s0.similarity_score)
    else llmBranch

theorem ruleBasedGo_eq_findSome (m : String) (cats : List CatRow) :
    ∀ rs, ruleBasedGo m cats rs
      = (rs.findSome? (fun r =>
          if r.1.any (fun kw => strContains m kw) then
            (cats.find? (fun cat => cat.name = r.2.1)).map
              (fun cat => (some cat.category_id, some cat.name, r.2.2))
          else none)).getD (none, none, 0) := by
  intro rs
  induction rs with
  | nil => rfl
  | cons r rest ih =>
    obtain ⟨kws, cname, conf⟩ := r
    by_cases h : kws.any (fun kw => strContains m kw) = true
    · simp only [ruleBasedGo, h, if_true, List.findSome?_cons]
      cases hf : cats.find? (fun cat => cat.name = cname) with
      | some cat => simp [hf]
      | none => simp [hf, ih]
    · have h' : kws.any (fun kw => strContains m kw) = false := by
        revert h; cases kws.any (fun kw => strContains m kw) <;> simp
      simp only [ruleBasedGo, h', Bool.false_eq_true, if_false,
        List.findSome?_cons, ih]

/-- C2 counterexample: with no similar transactions, the free implementation
ignores the notes (merchant "acme", notes "starbucks coffee" yields no
category, while the claimed merchant+notes matching yields Food & Dining),
and the paid implementation performs no rule-based fallback at all (it
returns no category even for merchant "Starbucks"). -/
theorem C2_counterexample :
    categorize_transaction_free ⟨"acme"⟩ [] [⟨1, "Food & Dining"⟩]
      = (none, none, 0) ∧
    (specC2_rule_based_with_notes "acme" "starbucks coffee"
      [⟨1, "Food & Dining"⟩]).2.1 = some "Food & Dining" ∧
    categorize_transaction_paid [] (some 5, some "X", 1) = (none, none, 0) ∧
    (rule_based_categorization ⟨"Starbucks"⟩ [⟨1, "Food & Dining"⟩]).2.1
      = some "Food & Dining" :=
  ⟨Prod.ext (by decide) (Prod.ext (by decide) rfl), by decide, rfl, by decide⟩

/-- C2 (amended): with no similar transactions, the free implementation
falls back to rule-based keyword matching against the lowercased merchant
only (notes are not consulted), returning — via the first rule with a
keyword occurring in the merchant whose category name resolves in the
category table — that category and the rule confidence; the paid
implementation returns no category with confidence 0 instead of any
rule-based fallback. -/
theorem C2_rule_based_fallback :
    (∀ (txn : TxnInput) (cats : List CatRow),
      categorize_transaction_free txn [] cats
        = rule_based_categorization txn cats) ∧
    (∀ llm, categorize_transaction_paid [] llm = (none, none, 0)) ∧
    (∀ (txn : TxnInput) (cats : List CatRow),
      rule_based_categorization txn cats
        = (rules.findSome? (fun r =>
            if r.1.any (fun kw => strContains (pyLower txn.merchant) kw) then
              (cats.find? (fun cat => cat.name = r.2.1)).map
                (fun cat => (some cat.category_id, some cat.name, r.2.2))
            else none)).getD (none, none, 0)) :=
  ⟨fun _ _ => rfl, fun _ => rfl,
   fun txn cats => ruleBasedGo_eq_findSome (pyLower txn.merchant) cats rules⟩

theorem foldl_pick_ge (es : List (String × VoteInfo)) :
    ∀ (e x : String × VoteInfo), (x = e ∨ x ∈ es) →
      x.2.weight ≤ (es.foldl
        (fun b y => if y.2.weight > b.2.weight then y else b) e).2.weight := by
  induction es with
  | nil =>
    rintro e x (rfl | h)
    · exact le_refl _
    · cases h
  | cons y ys ih =>
    rintro e x hx
    simp only [List.foldl_cons]
    have he1 : e.2.weight ≤
        (if y.2.weight > e.2.weight then y else e).2.weight := by
      split
      next h => exact le_of_lt h
      next h => exact le_refl _
    have he2 : y.2.weight ≤
        (if y.2.weight > e.2.weight then y else e).2.weight := by
      split
      next h => exact le_refl _
      next h => exact le_of_not_lt h
    rcases hx with rfl | hx
    · exact le_trans he1 (ih _ _ (Or.inl rfl))
    · rcases List.mem_cons.mp hx with rfl | hx
      · exact le_trans he2 (ih _ _ (Or.inl rfl))
      · exact ih _ x (Or.inr hx)

theorem pickMax_is_max (votes : List (String × VoteInfo))
    (best : String × VoteInfo) (h : pickMax votes = some best) :
    ∀ v ∈ votes, v.2.weight ≤ best.2.weight := by
  cases votes with
  | nil => cases h
  | cons e es =>
    intro v hv
    simp only [pickMax, Option.some.injEq] at h
    subst h
    rcases List.mem_cons.mp hv with h1 | h1
    · exact h1 ▸ foldl_pick_ge es e e (Or.inl rfl)
    · exact foldl_pick_ge es e v (Or.inr h1)

theorem lookup_addVote (votes : List (String × VoteInfo)) (tx : SimilarTx)
    (name : String) :
    ((addVote votes tx).lookup name).map VoteInfo.weight =
      if name = tx.confirmed_category_name then
        some ((((votes.lookup name).map VoteInfo.weight).getD 0)
          + tx.similarity_score)
      else (votes.lookup name).map VoteInfo.weight := by
  induction votes with
  | nil =>
    by_cases h : name = tx.confirmed_category_name
    · simp [addVote, List.lookup, h]
    · simp [addVote, List.lookup, h,
        show (name == tx.confirmed_category_name) = false by simpa using h]
  | cons e rest ih =>
    obtain ⟨m, v⟩ := e
    simp only [addVote]
    by_cases hmn : m = tx.confirmed_category_name
    · simp only [if_pos hmn]
      by_cases h : name = m
      · have h2 : name = tx.confirmed_category_name := h.trans hmn
        have hb : (name == m) = true := by simpa using h
        simp [List.lookup, hb, h2,
          show (tx.confirmed_category_name == m) = true by simpa using hmn.symm]
      · have hb : (name == m) = false := by simpa using h
        have h2 : ¬(name = tx.confirmed_category_name) :=
          fun hc => h (hc.trans hmn.symm)
        simp [List.lookup, hb, h2]
    · simp only [if_neg hmn]
      by_cases h : name = m
      · have hb : (name == m) = true := by simpa using h
        have h2 : ¬(name = tx.confirmed_category_name) :=
          fun hc => hmn (h.symm.trans hc)
        simp [List.lookup, hb, h2]
      · have hb : (name == m) = false := by simpa using h
        simp [List.lookup, hb, ih]

theorem foldl_addVote_lookup (name : String) :
    ∀ (sims : List SimilarTx) (votes0 : List (String × VoteInfo)),
      (((sims.foldl addVote votes0).lookup name).map VoteInfo.weight) =
        if sims.any (fun t => t.confirmed_category_name == name) then
          some ((((votes0.lookup name).map VoteInfo.weight).getD 0) +
            (((sims.filter (fun t => t.confirmed_category_name == name)).map
              SimilarTx.similarity_score).sum))
        else ((votes0.lookup name).map VoteInfo.weight) := by
  intro sims
  induction sims with
  | nil => intro votes0; simp
  | cons t ts ih =>
    intro votes0
    simp only [List.foldl_cons, List.any_cons, List.filter_cons]
    by_cases hn : t.confirmed_category_name = name
    · have hb : (t.confirmed_category_name == name) = true := by
        simpa using hn
      have hnn : name = t.confirmed_category_name := hn.symm
      simp only [hb, Bool.true_or, if_true, ih, lookup_addVote, if_pos hnn,
        List.map_cons, List.sum_cons]
      by_cases hany :
          ts.any (fun t => t.confirmed_category_name == name) = true
      · simp only [hany, if_true, Option.getD_some, add_assoc]
      · have hany2 :
            ts.any (fun t => t.confirmed_category_name == name) = false := by
          revert hany
          cases ts.any (fun t => t.confirmed_category_name == name) <;> simp
        have hfil :
            ts.filter (fun t => t.confirmed_category_name == name) = [] := by
          rw [List.filter_eq_nil_iff]
          intro a ha hpa
          rw [List.any_eq_false] at hany2
          exact hany2 a ha hpa
        simp only [hany2, Bool.false_eq_true, if_false, hfil, List.map_nil,
          List.sum_nil, add_zero, Option.getD_some]
    · have hb : (t.confirmed_category_name == name) = false := by
        simpa using hn
      have hne : ¬(name = t.confirmed_category_name) := fun h => hn h.symm
      simp only [hb, Bool.false_or, Bool.false_eq_true, if_false, ih,
        lookup_addVote, if_neg hne]

/-- C3: a top similarity at or above the cutoff (0.9 paid, 0.85 free)
adopts the top result with confidence equal to its score; otherwise the
free implementation runs weighted voting, where each similar transaction
adds its similarity score to its category's vote weight, the winning entry
carries the maximal weight, its confidence is its weight over the total
weight, and a confidence below 0.5 falls back to rule-based matching. -/
theorem C3_similarity_decision :
    (∀ (s0 : SimilarTx) (rest : List SimilarTx)
        (llm : Option Nat × Option String × ℚ),
      s0.similarity_score ≥ 0.9 →
      categorize_transaction_paid (s0 :: rest) llm
        = (some s0.confirmed_category_id, some s0.confirmed_category_name,
            s0.similarity_score)) ∧
    (∀ (txn : TxnInput) (s0 : SimilarTx) (rest : List SimilarTx)
        (cats : List CatRow),
      s0.similarity_score ≥ 0.85 →
      categorize_transaction_free txn (s0 :: rest) cats
        = (some s0.confirmed_category_id, some s0.confirmed_category_name,
            s0.similarity_score)) ∧
    (∀ (txn : TxnInput) (s0 : SimilarTx) (rest : List SimilarTx)
        (cats : List CatRow) (best : String × VoteInfo),
      ¬(s0.similarity_score ≥ 0.85) →
      pickMax (buildVotes (s0 :: rest)) = some best →
      (∀ v ∈ buildVotes (s0 :: rest), v.2.weight ≤ best.2.weight) ∧
      (∀ name : String,
        (((buildVotes (s0 :: rest)).lookup name).map VoteInfo.weight) =
          if (s0 :: rest).any
              (fun t => t.confirmed_category_name == name) then
            some ((((s0 :: rest).filter
              (fun t => t.confirmed_category_name == name)).map
                SimilarTx.similarity_score).sum)
          else none) ∧
      (best.2.weight / totalWeight (s0 :: rest) < 0.5 →
        categorize_transaction_free txn (s0 :: rest) cats
          = rule_based_categorization txn cats) ∧
      (¬(best.2.weight / totalWeight (s0 :: rest) < 0.5) →
        categorize_transaction_free txn (s0 :: rest) cats
          = (some best.2.category_id, some best.1,
              best.2.weight / totalWeight (s0 :: rest)))) := by
  refine ⟨?_, ?_, ?_⟩
  · intro s0 rest llm h
    simp only [categorize_transaction_paid, if_pos h]
  · intro txn s0 rest cats h
    simp only [categorize_transaction_free, if_pos h]
  · intro txn s0 rest cats best hlow hmax
    refine ⟨pickMax_is_max _ _ hmax, ?_, ?_, ?_⟩
    · intro name
      have := foldl_addVote_lookup name (s0 :: rest) []
      simpa [buildVotes, List.lookup] using this
    · intro hconf
      simp only [categorize_transaction_free, if_neg hlow, hmax, if_pos hconf]
    · intro hconf
      simp only [categorize_transaction_free, if_neg hlow, hmax, if_neg hconf]

/-- C3 witness: the decision theorem at concrete inputs — a 0.95-similar
result adopted by the paid path, a 0.9-similar result adopted by the free
path, and a single 0.8-similar result decided by voting. -/
theorem C3_similarity_decision_witness :
    categorize_transaction_paid [⟨0.95, 3, "Transportation"⟩] (none, none, 0)
      = (some 3, some "Transportation", 0.95) ∧
    categorize_transaction_free ⟨"m"⟩ [⟨0.9, 7, "Food & Dining"⟩] []
      = (some 7, some "Food & Dining", 0.9) ∧
    categorize_transaction_free ⟨"m"⟩ [⟨0.8, 1, "Shopping"⟩] []
      = (some 1, some "Shopping",
          (0.8 : ℚ) / totalWeight [⟨0.8, 1, "Shopping"⟩]) :=
  ⟨C3_similarity_decision.1 ⟨0.95, 3, "Transportation"⟩ [] (none, none, 0)
      (by norm_num),
   C3_similarity_decision.2.1 ⟨"m"⟩ ⟨0.9, 7, "Food & Dining"⟩ [] []
      (by norm_num),
   (C3_similarity_decision.2.2 ⟨"m"⟩ ⟨0.8, 1, "Shopping"⟩ [] []
      ("Shopping", ⟨0.8, 1, 1⟩) (by norm_num) rfl).2.2.2
      (by norm_num [totalWeight])⟩

/-! ## Paid embedding service: few-shot prompt

Source: `app/services/embeddings.py`, `EmbeddingService.format_few_shot_prompt`
(lines 107-139).  The prompt is ordinary string concatenation; substring
containment is stated over the underlying character lists.
-/

/-- Python `", ".join(categories)`. -/
def joinComma : List String → String
  | [] => ""
  | [c] => c
  | c :: c2 :: cs => c ++ ", " ++ joinComma (c2 :: cs)

/-- Introduction block of the prompt, verbatim from the source. -/
def fewShotIntro : String :=
  "You are a personal finance assistant specializing in expense categorization for Indian users.\n\nBased on the similar past transactions below, categorize the new transaction.\n\nSimilar past transactions:\n"

/-- The example loop `for i, (tx_text, category) in enumerate(similar_examples, 1):
prompt += f"{i}. {tx_text}\n"` — note only the transaction text of each
pair is printed, never the category component. -/
def exampleLines : Nat → List (String × String) → String
  | _, [] => ""
  | i, (tx, _) :: rest => toString i ++ ". " ++ tx ++ "\n" ++ exampleLines (i + 1) rest

/-- Model of `format_few_shot_prompt`. -/
def format_few_shot_prompt (newTxt : String)
    (examples : List (String × String)) (cats : List String) : String :=
  fewShotIntro ++ exampleLines 1 examples
    ++ "\nNow categorize this new transaction:\n" ++ newTxt ++ "\n\n"
    ++ "Available categories: " ++ joinComma cats ++ "\n\n"
    ++ "Respond with ONLY the category name, nothing else."

/-- Substring containment of `sub` in `s`. -/
def strHasSub (s sub : String) : Prop :=
  ∃ a b : List Char, s.data = a ++ (sub.data ++ b)

theorem isPrefixOf_append_self : ∀ p t : List Char,
    p.isPrefixOf (p ++ t) = true := by
  intro p
  induction p with
  | nil =>
    intro t
    cases t with
    | nil => rfl
    | cons a b => rfl
  | cons a ps ih =>
    intro t
    simp only [List.cons_append, List.isPrefixOf, beq_self_eq_true,
      Bool.true_and]
    exact ih t

theorem containsSub_nil_left : ∀ l : List Char, containsSub [] l = true := by
  intro l
  cases l with
  | nil => rfl
  | cons x xs => rfl

theorem containsSub_append_self : ∀ (a pat b : List Char),
    containsSub pat (a ++ (pat ++ b)) = true := by
  intro a
  induction a with
  | nil =>
    intro pat b
    cases pat with
    | nil => exact containsSub_nil_left _
    | cons p ps =>
      simp only [List.nil_append, List.cons_append, containsSub,
        List.append_eq]
      rw [← List.cons_append, isPrefixOf_append_self]
      rfl
  | cons x a2 ih =>
    intro pat b
    simp only [List.cons_append, containsSub, List.append_eq, ih,
      Bool.or_true]

theorem isPrefixOf_exists : ∀ {p l : List Char},
    p.isPrefixOf l = true → ∃ t, l = p ++ t := by
  intro p
  induction p with
  | nil => intro l _; exact ⟨l, rfl⟩
  | cons a ps ih =>
    intro l h
    cases l with
    | nil => cases h
    | cons x xs =>
      simp only [List.isPrefixOf, Bool.and_eq_true, beq_iff_eq] at h
      obtain ⟨t, ht⟩ := ih h.2
      exact ⟨t, by rw [ht, h.1]; rfl⟩

theorem containsSub_exists : ∀ {pat l : List Char},
    containsSub pat l = true → ∃ a b, l = a ++ (pat ++ b) := by
  intro pat l
  induction l with
  | nil =>
    intro h
    simp only [containsSub, List.isEmpty_iff] at h
    exact ⟨[], [], by simp [h]⟩
  | cons x xs ih =>
    intro h
    simp only [containsSub, Bool.or_eq_true] at h
    rcases h with h | h
    · obtain ⟨t, ht⟩ := isPrefixOf_exists h
      exact ⟨[], t, by simp [ht]⟩
    · obtain ⟨a, b, hab⟩ := ih h
      exact ⟨x :: a, b, by simp [hab]⟩

theorem strHasSub_of_containsSub {s sub : String}
    (h : containsSub sub.data s.data = true) : strHasSub s sub :=
  containsSub_exists h

theorem not_strHasSub_of_containsSub_eq_false {s sub : String}
    (h : containsSub sub.data s.data = false) : ¬ strHasSub s sub := by
  rintro ⟨a, b, hab⟩
  rw [hab, containsSub_append_self] at h
  cases h

theorem strHasSub_append_right (t : String) {s x : String}
    (h : strHasSub s x) : strHasSub (s ++ t) x := by
  obtain ⟨a, b, hab⟩ := h
  exact ⟨a, b ++ t.data, by simp [String.data_append, hab]⟩

theorem strHasSub_append_left (t : String) {s x : String}
    (h : strHasSub s x) : strHasSub (t ++ s) x := by
  obtain ⟨a, b, hab⟩ := h
  exact ⟨t.data ++ a, b, by simp [String.data_append, hab]⟩

theorem exampleLines_hasSub :
    ∀ (examples : List (String × String)) (i k : Nat) (h : k < examples.length),
      strHasSub (exampleLines i examples)
        (toString (i + k) ++ ". " ++ (examples.get ⟨k, h⟩).1 ++ "\n") := by
  intro examples
  induction examples with
  | nil => intro i k h; cases h
  | cons e rest ih =>
    intro i k h
    obtain ⟨tx, cat⟩ := e
    cases k with
    | zero =>
      refine ⟨[], (exampleLines (i + 1) rest).data, ?_⟩
      simp [exampleLines, String.data_append]
    | succ k2 =>
      have h2 : k2 < rest.length := Nat.lt_of_succ_lt_succ h
      have := ih (i + 1) k2 h2
      have harith : i + 1 + k2 = i + (k2 + 1) := by omega
      rw [harith] at this
      have hmem : strHasSub (exampleLines i ((tx, cat) :: rest))
          (toString (i + (k2 + 1)) ++ ". " ++ (rest.get ⟨k2, h2⟩).1 ++ "\n") := by
        show strHasSub
          (toString i ++ ". " ++ tx ++ "\n" ++ exampleLines (i + 1) rest) _
        exact strHasSub_append_left _ this
      exact hmem

set_option maxRecDepth 8192 in
/-- C4 counterexample: the prompt claim as stated fails — the numbered
example lines print only each pair's transaction text, never its confirmed
category, so a category name appearing only as the confirmed category of an
example is absent from the prompt. -/
theorem C4_counterexample :
    ¬ strHasSub (format_few_shot_prompt "2024-01-01│₹10.0│acme"
        [("2024-01-01│₹12.0│cafe one", "SomeUniqueCategory")]
        ["Food & Dining", "Shopping"]) "SomeUniqueCategory" :=
  not_strHasSub_of_containsSub_eq_false (by decide)

set_option maxRecDepth 8192 in
/-- C4 (amended): the prompt contains the introduction framing the
assistant as a personal-finance categorizer "for Indian users", a numbered
list of the example transaction texts (numbered from 1; the confirmed
category of each pair is not printed), the new transaction to classify, the
comma-joined list of valid category names, and the respond-with-only-the-
category-name instruction. -/
theorem C4_few_shot_prompt (newTxt : String)
    (examples : List (String × String)) (cats : List String) :
    strHasSub (format_few_shot_prompt newTxt examples cats)
      "for Indian users" ∧
    (∀ k (h : k < examples.length),
      strHasSub (format_few_shot_prompt newTxt examples cats)
        (toString (k + 1) ++ ". " ++ (examples.get ⟨k, h⟩).1 ++ "\n")) ∧
    strHasSub (format_few_shot_prompt newTxt examples cats)
      ("\nNow categorize this new transaction:\n" ++ newTxt ++ "\n\n") ∧
    strHasSub (format_few_shot_prompt newTxt examples cats)
      ("Available categories: " ++ joinComma cats) ∧
    strHasSub (format_few_shot_prompt newTxt examples cats)
      "Respond with ONLY the category name, nothing else." := by
  refine ⟨?_, ?_, ?_, ?_, ?_⟩
  · unfold format_few_shot_prompt
    repeat apply strHasSub_append_right
    exact strHasSub_of_containsSub (by decide)
  · intro k h
    unfold format_few_shot_prompt
    iterate 7 apply strHasSub_append_right
    apply strHasSub_append_left
    have := exampleLines_hasSub examples 1 k h
    rwa [Nat.add_comm 1 k] at this
  · refine ⟨(fewShotIntro ++ exampleLines 1 examples).data,
      ("Available categories: " ++ joinComma cats ++ "\n\n"
        ++ "Respond with ONLY the category name, nothing else.").data, ?_⟩
    simp [format_few_shot_prompt, String.data_append, List.append_assoc]
  · refine ⟨(fewShotIntro ++ exampleLines 1 examples
        ++ "\nNow categorize this new transaction:\n" ++ newTxt
        ++ "\n\n").data,
      ("\n\n" ++ "Respond with ONLY the category name, nothing else.").data,
      ?_⟩
    simp [format_few_shot_prompt, String.data_append, List.append_assoc]
  · refine ⟨(fewShotIntro ++ exampleLines 1 examples
        ++ "\nNow categorize this new transaction:\n" ++ newTxt ++ "\n\n"
        ++ "Available categories: " ++ joinComma cats ++ "\n\n").data,
      [], ?_⟩
    simp [format_few_shot_prompt, String.data_append, List.append_assoc]

/-- C4 witness: the numbered-list conjunct of the prompt theorem at a
concrete example list, discharging the index bound. -/
theorem C4_few_shot_prompt_witness :
    strHasSub (format_few_shot_prompt "t-new" [("t-ex", "Food")] ["Food"])
      (toString (0 + 1) ++ ". "
        ++ (([("t-ex", "Food")] : List (String × String)).get
            ⟨0, by decide⟩).1 ++ "\n") :=
  (C4_few_shot_prompt "t-new" [("t-ex", "Food")] ["Food"]).2.1 0 (by decide)

/-! ## Tool layer: subscription analysis

Source: `app/mcp/tools.py`, `analyze_subscriptions` (lines 572-646).  The
transaction fetch and tag join are external I/O: the model receives the
fetched transactions with their tag values attached.  Python
`round(x, 2)` is modelled exactly on rationals as round-half-to-even at two
decimal places (`pyRound2`).
-/

/-- Python `round(x, 2)`: round half to even at 2 decimal places. -/
def pyRound2 (x : ℚ) : ℚ :=
  let f := ⌊x * 100⌋
  let frac := x * 100 - f
  ((if frac < 1/2 then f
    else if frac > 1/2 then f + 1
    else if f % 2 = 0 then f else f + 1 : ℤ) : ℚ) / 100

/-- A fetched transaction with its tag values. -/
structure SubTxn where
  merchant : String
  amount : ℚ
  tags : List String
  deriving DecidableEq, Repr

/-- The five tag values that flag a subscription transaction. -/
def subscriptionTags : List String :=
  ["subscription", "annual-subscription", "monthly-subscription",
   "quarterly-subscription", "recurring"]

/-- The filter collecting `subscription_transactions`. -/
def subscription_transactions (txs : List SubTxn) : List SubTxn :=
  txs.filter (fun t => subscriptionTags.any (fun tag => t.tags.contains tag))

/-- One `sub_info` record (derived figures present only when computed). -/
structure SubInfo where
  merchant : String
  amount : ℚ
  monthly_equivalent : Option ℚ
  annual_cost : Option ℚ
  deriving DecidableEq, Repr

/-- Bucket tests, in the if/elif order of the source. -/
def isAnnualTagged (t : SubTxn) : Bool :=
  t.tags.contains "annual-subscription"

/-- Monthly bucket: not annual-tagged, monthly-tagged. -/
def isMonthlyTagged (t : SubTxn) : Bool :=
  !isAnnualTagged t && t.tags.contains "monthly-subscription"

/-- Other bucket: neither annual- nor monthly-tagged (quarterly lands
here). -/
def isOtherTagged (t : SubTxn) : Bool :=
  !isAnnualTagged t && !(t.tags.contains "monthly-subscription")

/-- Annual-bucket record: `monthly_equivalent = round(amount / 12, 2)`. -/
def annualEntry (t : SubTxn) : SubInfo :=
  { merchant := t.merchant, amount := t.amount,
    monthly_equivalent := some (pyRound2 (t.amount / 12)),
    annual_cost := none }

/-- Monthly-bucket record: `annual_cost = round(amount * 12, 2)`. -/
def monthlyEntry (t : SubTxn) : SubInfo :=
  { merchant := t.merchant, amount := t.amount,
    monthly_equivalent := none,
    annual_cost := some (pyRound2 (t.amount * 12)) }

/-- Other-bucket record: a quarterly tag derives
`monthly_equivalent = round(amount / 3, 2)` and
`annual_cost = round(amount * 4, 2)`; otherwise no derived figures. -/
def otherEntry (t : SubTxn) : SubInfo :=
  if t.tags.contains "quarterly-subscription" then
    { merchant := t.merchant, amount := t.amount,
      monthly_equivalent := some (pyRound2 (t.amount / 3)),
      annual_cost := some (pyRound2 (t.amount * 4)) }
  else
    { merchant := t.merchant, amount := t.amount,
      monthly_equivalent := none, annual_cost := none }

/-- One step of the bucketing loop, appending to
(monthly_subs, annual_subs, other_subs). -/
def bucketSub (acc : List SubInfo × List SubInfo × List SubInfo)
    (t : SubTxn) : List SubInfo × List SubInfo × List SubInfo :=
  if isAnnualTagged t then
    (acc.1, acc.2.1 ++ [annualEntry t], acc.2.2)
  else if t.tags.contains "monthly-subscription" then
    (acc.1 ++ [monthlyEntry t], acc.2.1, acc.2.2)
  else
    (acc.1, acc.2.1, acc.2.2 ++ [otherEntry t])

/-- The analysis result dict. -/
structure SubscriptionAnalysis where
  monthly_subscriptions : List SubInfo
  annual_subscriptions : List SubInfo
  other_subscriptions : List SubInfo
  monthly_total : ℚ
  annual_total_equivalent : ℚ
  deriving DecidableEq, Repr

/-- Model of `analyze_subscriptions`. -/
def analyze_subscriptions (txs : List SubTxn) : SubscriptionAnalysis :=
  let subs := subscription_transactions txs
  let b := subs.foldl bucketSub ([], [], [])
  let total_monthly := (b.1.map SubInfo.amount).sum
  let total_annual := total_monthly * 12 + (b.2.1.map SubInfo.amount).sum
    + (b.2.2.filterMap SubInfo.annual_cost).sum
  { monthly_subscriptions := b.1
    annual_subscriptions := b.2.1
    other_subscriptions := b.2.2
    monthly_total := pyRound2 total_monthly
    annual_total_equivalent := pyRound2 total_annual }

theorem foldl_bucketSub (l : List SubTxn) :
    ∀ m0 a0 o0, l.foldl bucketSub (m0, a0, o0)
      = (m0 ++ (l.filter isMonthlyTagged).map monthlyEntry,
         a0 ++ (l.filter isAnnualTagged).map annualEntry,
         o0 ++ (l.filter isOtherTagged).map otherEntry) := by
  induction l with
  | nil => intro m0 a0 o0; simp
  | cons t ts ih =>
    intro m0 a0 o0
    by_cases ha : isAnnualTagged t = true
    · have hm : isMonthlyTagged t = false := by
        unfold isMonthlyTagged; rw [ha]; rfl
      have ho : isOtherTagged t = false := by
        unfold isOtherTagged; rw [ha]; rfl
      simp only [List.foldl_cons, bucketSub, ha, if_true, List.filter_cons,
        hm, ho, Bool.false_eq_true, if_false, ih, List.map_cons,
        List.append_assoc, List.singleton_append]
    · have ha2 : isAnnualTagged t = false := by
        revert ha; cases isAnnualTagged t <;> simp
      by_cases hmt : t.tags.contains "monthly-subscription" = true
      · have hm : isMonthlyTagged t = true := by
          unfold isMonthlyTagged; rw [ha2, hmt]; rfl
        have ho : isOtherTagged t = false := by
          unfold isOtherTagged; rw [ha2, hmt]; rfl
        simp only [List.foldl_cons, bucketSub, ha2, Bool.false_eq_true,
          if_false, hmt, if_true, List.filter_cons, hm, ho, ih,
          List.map_cons, List.append_assoc, List.singleton_append]
      · have hmt2 : t.tags.contains "monthly-subscription" = false := by
          revert hmt; cases t.tags.contains "monthly-subscription" <;> simp
        have hm : isMonthlyTagged t = false := by
          unfold isMonthlyTagged; rw [hmt2, Bool.and_false]
        have ho : isOtherTagged t = true := by
          unfold isOtherTagged; rw [ha2, hmt2]; rfl
        simp only [List.foldl_cons, bucketSub, ha2, hmt2,
          Bool.false_eq_true, if_false, List.filter_cons, hm, ho, if_true,
          ih, List.map_cons, List.append_assoc, List.singleton_append]

/-- C5 counterexample: the claim as stated fails on a 100.00
annual-subscription transaction — the code stores
`monthly_equivalent = round(100/12, 2) = 8.33`, not `100/12`. -/
theorem C5_counterexample :
    (analyze_subscriptions
      [⟨"svc", 100, ["annual-subscription"]⟩]).annual_subscriptions
      = [⟨"svc", 100, some (833/100), none⟩] ∧
    (833/100 : ℚ) ≠ 100 / 12 := by
  constructor
  · have n1 : ("annual-subscription" : String) ≠ "subscription" := by decide
    have n2 : ("annual-subscription" : String) ≠ "monthly-subscription" := by
      decide
    have n3 : ("annual-subscription" : String) ≠ "quarterly-subscription" := by
      decide
    have n4 : ("annual-subscription" : String) ≠ "recurring" := by decide
    norm_num [analyze_subscriptions, subscription_transactions,
      subscriptionTags, bucketSub, isAnnualTagged, annualEntry, pyRound2,
      SubInfo.mk.injEq, n1, n2, n3, n4]
  · norm_num

/-- C5 (amended): `analyze_subscriptions` buckets every subscription-tagged
transaction by its specific tag — annual tag: monthly_equivalent =
amount/12 rounded to 2 decimals; else monthly tag: annual_cost = amount*12
rounded; otherwise the other bucket, where a quarterly tag derives
monthly_equivalent = amount/3 and annual_cost = amount*4 (both rounded) and
any other subscription-flagged transaction gets no derived figure — and
returns monthly_total = the rounded sum of monthly-bucket amounts and
annual_total_equivalent = the rounded value of (monthly-bucket sum)*12 plus
annual-bucket amounts plus the derived other-bucket annual costs; in
particular 1200 annual gives monthly_equivalent 100, 100 monthly gives
annual_cost 1200, and 300 quarterly gives monthly_equivalent 100 and
annual_cost 1200. -/
theorem C5_analyze_subscriptions :
    (∀ txs : List SubTxn,
      (analyze_subscriptions txs).annual_subscriptions
        = ((subscription_transactions txs).filter isAnnualTagged).map
            annualEntry ∧
      (analyze_subscriptions txs).monthly_subscriptions
        = ((subscription_transactions txs).filter isMonthlyTagged).map
            monthlyEntry ∧
      (analyze_subscriptions txs).other_subscriptions
        = ((subscription_transactions txs).filter isOtherTagged).map
            otherEntry ∧
      (analyze_subscriptions txs).monthly_total
        = pyRound2 (((analyze_subscriptions txs).monthly_subscriptions.map
            SubInfo.amount).sum) ∧
      (analyze_subscriptions txs).annual_total_equivalent
        = pyRound2
            ((((analyze_subscriptions txs).monthly_subscriptions.map
                SubInfo.amount).sum) * 12
              + (((analyze_subscriptions txs).annual_subscriptions.map
                  SubInfo.amount).sum)
              + (((analyze_subscriptions txs).other_subscriptions.filterMap
                  SubInfo.annual_cost).sum))) ∧
    analyze_subscriptions
      [⟨"a", 1200, ["annual-subscription"]⟩,
       ⟨"m", 100, ["monthly-subscription"]⟩,
       ⟨"q", 300, ["quarterly-subscription"]⟩] =
    { monthly_subscriptions := [⟨"m", 100, none, some 1200⟩],
      annual_subscriptions := [⟨"a", 1200, some 100, none⟩],
      other_subscriptions := [⟨"q", 300, some 100, some 1200⟩],
      monthly_total := 100,
      annual_total_equivalent := 3600 } := by
  constructor
  · intro txs
    refine ⟨?_, ?_, ?_, ?_, ?_⟩ <;>
      simp [analyze_subscriptions, foldl_bucketSub]
  · have n1 : ("annual-subscription" : String) ≠ "subscription" := by decide
    have n2 : ("annual-subscription" : String) ≠ "monthly-subscription" := by
      decide
    have n3 : ("annual-subscription" : String) ≠ "quarterly-subscription" := by
      decide
    have n4 : ("annual-subscription" : String) ≠ "recurring" := by decide
    have n5 : ("monthly-subscription" : String) ≠ "subscription" := by decide
    have n6 : ("monthly-subscription" : String) ≠ "annual-subscription" := by
      decide
    have n7 : ("monthly-subscription" : String) ≠ "quarterly-subscription" := by
      decide
    have n8 : ("monthly-subscription" : String) ≠ "recurring" := by decide
    have n9 : ("quarterly-subscription" : String) ≠ "subscription" := by decide
    have n10 : ("quarterly-subscription" : String) ≠ "annual-subscription" := by
      decide
    have n11 : ("quarterly-subscription" : String) ≠ "monthly-subscription" := by
      decide
    have n12 : ("quarterly-subscription" : String) ≠ "recurring" := by decide
    norm_num [analyze_subscriptions, subscription_transactions,
      subscriptionTags, bucketSub, isAnnualTagged, annualEntry, monthlyEntry,
      otherEntry, pyRound2, SubscriptionAnalysis.mk.injEq, SubInfo.mk.injEq,
      List.filterMap_cons, List.filterMap_nil,
      n1, n2, n3, n4, n5, n6, n7, n8, n9, n10, n11, n12]

/-! ## Embedding services: cosine similarity

Source: `app/services/embeddings_free.py`,
`FreeEmbeddingService.calculate_similarity` (lines 74-93), duplicated in
`app/services/embeddings.py` (lines 82-105).  numpy float arithmetic is
idealised as real arithmetic: `np.dot` is the pairwise product sum,
`np.linalg.norm` the square root of the self dot product.
-/

/-- `np.dot` of two vectors (pairwise products, summed). -/
def dotR : List ℝ → List ℝ → ℝ
  | [], _ => 0
  | _, [] => 0
  | x :: xs, y :: ys => x * y + dotR xs ys

/-- `np.linalg.norm`. -/
noncomputable def normR (v : List ℝ) : ℝ :=
  Real.sqrt (dotR v v)

/-- Model of `calculate_similarity`: 0 when either norm is zero, otherwise
the dot product over the product of the norms. -/
noncomputable def calculate_similarity (v1 v2 : List ℝ) : ℝ :=
  if normR v1 = 0 ∨ normR v2 = 0 then 0
  else dotR v1 v2 / (normR v1 * normR v2)

theorem dotR_nonneg (v : List ℝ) : 0 ≤ dotR v v := by
  induction v with
  | nil => simp [dotR]
  | cons x xs ih =>
    simp only [dotR]
    exact add_nonneg (mul_self_nonneg x) ih

theorem dotR_eq_sum (v1 : List ℝ) :
    ∀ v2 : List ℝ, v1.length = v2.length →
      dotR v1 v2 = ∑ i ∈ Finset.range v1.length,
        v1.getD i 0 * v2.getD i 0 := by
  induction v1 with
  | nil => intro v2 h; simp [dotR]
  | cons x xs ih =>
    intro v2 h
    cases v2 with
    | nil => cases h
    | cons y ys =>
      have hl : xs.length = ys.length := by simpa using h
      simp only [dotR, List.length_cons, Finset.sum_range_succ']
      rw [ih ys hl]
      simp only [List.getD_cons_succ, List.getD_cons_zero]
      exact add_comm _ _

theorem dotR_self_eq_sum_sq (v : List ℝ) :
    dotR v v = ∑ i ∈ Finset.range v.length, v.getD i 0 ^ 2 := by
  rw [dotR_eq_sum v v rfl]
  refine Finset.sum_congr rfl ?_
  intro i _
  ring

theorem dotR_le_norm_mul_norm {v1 v2 : List ℝ} (h : v1.length = v2.length) :
    dotR v1 v2 ≤ normR v1 * normR v2 := by
  have h2 := Real.sum_mul_le_sqrt_mul_sqrt (Finset.range v1.length)
    (fun i => v1.getD i 0) (fun i => v2.getD i 0)
  rw [dotR_eq_sum v1 v2 h, normR, normR, dotR_self_eq_sum_sq v1,
    dotR_self_eq_sum_sq v2, ← h]
  exact h2

theorem neg_norm_mul_norm_le_dotR {v1 v2 : List ℝ}
    (h : v1.length = v2.length) :
    -(normR v1 * normR v2) ≤ dotR v1 v2 := by
  have h2 := Real.sum_mul_le_sqrt_mul_sqrt (Finset.range v1.length)
    (fun i => -(v1.getD i 0)) (fun i => v2.getD i 0)
  simp only [neg_mul, Finset.sum_neg_distrib, neg_sq] at h2
  rw [dotR_eq_sum v1 v2 h, normR, normR, dotR_self_eq_sum_sq v1,
    dotR_self_eq_sum_sq v2, ← h]
  linarith

/-- C8 counterexample: the claim as stated fails — for the opposed
unit vectors [1] and [-1] the similarity is -1, outside [0, 1]. -/
theorem C8_counterexample :
    calculate_similarity [1] [-1] = -1 ∧
    (-1 : ℝ) ∉ Set.Icc (0 : ℝ) 1 := by
  constructor
  · have hn : normR [1] = 1 := by
      simp [normR, dotR]
    have hn2 : normR [-1] = 1 := by
      simp only [normR, dotR]
      norm_num
    simp [calculate_similarity, hn, hn2, dotR]
  · simp

/-- C8 (amended): for equal-length vectors, `calculate_similarity` returns
a value in [-1, 1] — cosine similarity, the dot product over the product of
norms — and returns 0 whenever either vector has zero norm. -/
theorem C8_calculate_similarity (v1 v2 : List ℝ)
    (h : v1.length = v2.length) :
    calculate_similarity v1 v2 ∈ Set.Icc (-1 : ℝ) 1 ∧
    (normR v1 = 0 ∨ normR v2 = 0 → calculate_similarity v1 v2 = 0) ∧
    (¬(normR v1 = 0 ∨ normR v2 = 0) →
      calculate_similarity v1 v2
        = dotR v1 v2 / (normR v1 * normR v2)) := by
  refine ⟨?_, ?_, ?_⟩
  · by_cases hz : normR v1 = 0 ∨ normR v2 = 0
    · simp [calculate_similarity, hz]
    · have h1 : normR v1 ≠ 0 := fun hc => hz (Or.inl hc)
      have h2 : normR v2 ≠ 0 := fun hc => hz (Or.inr hc)
      have hp1 : 0 < normR v1 :=
        lt_of_le_of_ne (Real.sqrt_nonneg _) (Ne.symm h1)
      have hp2 : 0 < normR v2 :=
        lt_of_le_of_ne (Real.sqrt_nonneg _) (Ne.symm h2)
      have hp : 0 < normR v1 * normR v2 := mul_pos hp1 hp2
      simp only [calculate_similarity, hz, if_false, Set.mem_Icc]
      constructor
      · rw [le_div_iff₀ hp]
        have := neg_norm_mul_norm_le_dotR h
        linarith
      · rw [div_le_one hp]
        exact dotR_le_norm_mul_norm h
  · intro hz
    simp [calculate_similarity, hz]
  · intro hz
    simp [calculate_similarity, hz]

/-- C8 witness: the similarity theorem applied to concrete orthogonal
vectors, discharging the equal-length hypothesis. -/
theorem C8_calculate_similarity_witness :
    calculate_similarity [1, 0] [0, 1] ∈ Set.Icc (-1 : ℝ) 1 :=
  (C8_calculate_similarity [1, 0] [0, 1] rfl).1

end ExpenseTracker
